import Mathlib

/-!
Shallow embedding of the Tartiflette VM control plane (src/vm/src/vm.rs and
src/vm2/src/vm.rs) and proofs about it.

Machine integers are modelled as `Nat`.  Registers are 64-bit values; the
source performs no arithmetic on them apart from `rflags |= 1 << 1` and
`rip += 2`, which are embedded as the corresponding `Nat` operations (the
`+ 2` on an in-range u64; overflow is an overflow-check panic in the Rust
debug profile and cannot occur below `2^64 - 2`).

The `VirtualMemory`, `bits` and `x64` collaborator crates are outside
`src/`; where a claim depends on them the corresponding definition is
modelled from the spec and marked `Modelled from the spec:` in its doc
comment.
-/

/-- Modelled from the spec: `PAGE_SIZE` of the memory collaborator crate;
the spec's layout table describes the control pages as "4 KiB each". -/
def PAGE_SIZE : Nat := 4096

/-- Modelled from the spec: `BitField::is_bit_set` from the `bits`
collaborator crate, "status decoded ... with bits": testing a single bit
position of a machine word. -/
def is_bit_set (v : Nat) (b : Nat) : Bool := v.testBit b

/-- `Register` enum of src/vm/src/vm.rs (lines 63-106): the closed list of
20 register names. -/
inductive Register where
  | Rax | Rbx | Rcx | Rdx | Rsi | Rdi | Rsp | Rbp
  | R8 | R9 | R10 | R11 | R12 | R13 | R14 | R15
  | Rip | Rflags | FsBase | GsBase
deriving DecidableEq, Repr

/-- The fields of `kvm_regs` used by the source: 16 GPRs, rip, rflags. -/
structure KvmRegs where
  rax : Nat
  rbx : Nat
  rcx : Nat
  rdx : Nat
  rsi : Nat
  rdi : Nat
  rsp : Nat
  rbp : Nat
  r8 : Nat
  r9 : Nat
  r10 : Nat
  r11 : Nat
  r12 : Nat
  r13 : Nat
  r14 : Nat
  r15 : Nat
  rip : Nat
  rflags : Nat
deriving Repr, DecidableEq

/-- The fields of `kvm_sregs` the claims touch (cr2, descriptor-table
registers), with the remaining fields (segment selectors, cr0/cr3/cr4,
efer, tr, ...) summarized in `rest`; `reset` and `clone` copy the whole
structure at once. -/
structure KvmSregs where
  cr2 : Nat
  gdtBase : Nat
  gdtLimit : Nat
  idtBase : Nat
  idtLimit : Nat
  rest : Nat
deriving Repr, DecidableEq

/-- The mirror state of the `Vm` struct (src/vm/src/vm.rs lines 164-186):
register shadow, special-register shadow, FS/GS base, hypercall page base,
and the memory collaborator projected to its physical backing bytes and
host memory size. -/
structure Vm where
  registers : KvmRegs
  special_registers : KvmSregs
  fs_base : Nat
  gs_base : Nat
  hypercall_page : Nat
  host_memory_size : Nat
  pmem : Nat → Nat

/-- `PageFaultDetail` (src/vm/src/vm.rs lines 108-115). -/
structure PageFaultDetail where
  status : Nat
  address : Nat
deriving Repr, DecidableEq

/-- `PageFaultDetail::unmapped` (line 120): `self.status.is_bit_set(0)`. -/
def PageFaultDetail.unmapped (d : PageFaultDetail) : Bool := is_bit_set d.status 0

/-- `PageFaultDetail::read` (line 126): `self.status.is_bit_set(1)`. -/
def PageFaultDetail.read (d : PageFaultDetail) : Bool := is_bit_set d.status 1

/-- `PageFaultDetail::write` (line 132): `!self.read()`. -/
def PageFaultDetail.write (d : PageFaultDetail) : Bool := !d.read

/-- `PageFaultDetail::instruction_fetch` (line 138): `self.status.is_bit_set(15)`. -/
def PageFaultDetail.instruction_fetch (d : PageFaultDetail) : Bool := is_bit_set d.status 15

/-- `VmExit` (src/vm/src/vm.rs lines 143-162). -/
inductive VmExit where
  | Hlt
  | Breakpoint
  | Interrupted
  | InvalidInstruction
  | PageFault (detail : PageFaultDetail)
  | Exception (vector : Nat)
  | Syscall
  | Unhandled
deriving Repr, DecidableEq

/-- `VmError` (src/vm/src/vm.rs lines 34-43); the collaborator payloads are
abstracted away. -/
inductive VmError where
  | MemoryError
  | SnapshotError
  | HvError (msg : String)
deriving Repr, DecidableEq

/-- `Vm::get_reg` (src/vm/src/vm.rs lines 488-512). -/
def get_reg (s : Vm) (regid : Register) : Nat :=
  match regid with
  | Register.Rax => s.registers.rax
  | Register.Rbx => s.registers.rbx
  | Register.Rcx => s.registers.rcx
  | Register.Rdx => s.registers.rdx
  | Register.Rsi => s.registers.rsi
  | Register.Rdi => s.registers.rdi
  | Register.Rsp => s.registers.rsp
  | Register.Rbp => s.registers.rbp
  | Register.R8 => s.registers.r8
  | Register.R9 => s.registers.r9
  | Register.R10 => s.registers.r10
  | Register.R11 => s.registers.r11
  | Register.R12 => s.registers.r12
  | Register.R13 => s.registers.r13
  | Register.R14 => s.registers.r14
  | Register.R15 => s.registers.r15
  | Register.Rip => s.registers.rip
  | Register.Rflags => s.registers.rflags
  | Register.FsBase => s.fs_base
  | Register.GsBase => s.gs_base

/-- `Vm::set_reg` (src/vm/src/vm.rs lines 514-539); the source function is
infallible (it returns `()`), so the embedding returns the updated state. -/
def set_reg (s : Vm) (regid : Register) (regval : Nat) : Vm :=
  match regid with
  | Register.Rax => { s with registers := { s.registers with rax := regval } }
  | Register.Rbx => { s with registers := { s.registers with rbx := regval } }
  | Register.Rcx => { s with registers := { s.registers with rcx := regval } }
  | Register.Rdx => { s with registers := { s.registers with rdx := regval } }
  | Register.Rsi => { s with registers := { s.registers with rsi := regval } }
  | Register.Rdi => { s with registers := { s.registers with rdi := regval } }
  | Register.Rsp => { s with registers := { s.registers with rsp := regval } }
  | Register.Rbp => { s with registers := { s.registers with rbp := regval } }
  | Register.R8 => { s with registers := { s.registers with r8 := regval } }
  | Register.R9 => { s with registers := { s.registers with r9 := regval } }
  | Register.R10 => { s with registers := { s.registers with r10 := regval } }
  | Register.R11 => { s with registers := { s.registers with r11 := regval } }
  | Register.R12 => { s with registers := { s.registers with r12 := regval } }
  | Register.R13 => { s with registers := { s.registers with r13 := regval } }
  | Register.R14 => { s with registers := { s.registers with r14 := regval } }
  | Register.R15 => { s with registers := { s.registers with r15 := regval } }
  | Register.Rip => { s with registers := { s.registers with rip := regval } }
  | Register.Rflags => { s with registers := { s.registers with rflags := regval } }
  | Register.FsBase => { s with fs_base := regval }
  | Register.GsBase => { s with gs_base := regval }

/-- The mirror update performed by `Vm::flush_registers` before writing the
registers to the vCPU (src/vm/src/vm.rs line 591):
`self.registers.rflags |= 1 << 1`. -/
def flushRegistersMirror (r : KvmRegs) : KvmRegs :=
  { r with rflags := r.rflags ||| (1 <<< 1) }

/-- The mirror update performed by `Vm::commit_registers` before writing
the registers to the run-area shadow (src/vm/src/vm.rs line 641):
`self.registers.rflags |= 1 << 1`. -/
def commitRegistersMirror (r : KvmRegs) : KvmRegs :=
  { r with rflags := r.rflags ||| (1 <<< 1) }

/-- `Vm::run`'s register lifecycle (src/vm/src/vm.rs lines 672-711): the
mirror is committed (rflags bit 1 forced) and written to the run-area
shadow and the FS/GS base MSRs, the hypervisor runs the guest, then the
mirror is re-read from the run-area shadow and the MSRs.  The guest's
effect is the oracle `guest` on the synchronized registers and `guestMsrs`
on the (fs_base, gs_base) MSR pair. -/
def runPullRegs (guest : KvmRegs → KvmRegs) (guestMsrs : Nat → Nat → Nat × Nat)
    (s : Vm) : Vm :=
  let committed := commitRegistersMirror s.registers
  let after := guest committed
  let msrs := guestMsrs s.fs_base s.gs_base
  { s with registers := after, fs_base := msrs.1, gs_base := msrs.2 }

/-- The state as committed to the hypervisor at guest entry: the mirror
after `commit_registers`, before the guest runs. -/
def committedState (s : Vm) : Vm :=
  { s with registers := commitRegistersMirror s.registers }

/-- C1 — code_bug evidence: evaluating the source's `PageFaultDetail`
predicates at the x86 error codes of the two basic unmapped accesses.
Status 0 (read of a non-present page): the code reports `unmapped() =
false`, `read() = false`, `write() = true`.  Status 2 (write to a
non-present page): the code reports `unmapped() = false`, `read() = true`,
`write() = false`.  Both are the exact inverses of the claim's decoding
(bit 0 clear ⇒ unmapped, bit 1 clear ⇒ read), which matches the standard
x86 layout and the functions' own doc comments.  `instruction_fetch`
(bit 15 set) agrees with the claim. -/
theorem pageFaultDetail_status_eval :
    PageFaultDetail.unmapped ⟨0, 0x2000⟩ = false ∧
    PageFaultDetail.read ⟨0, 0x2000⟩ = false ∧
    PageFaultDetail.write ⟨0, 0x2000⟩ = true ∧
    PageFaultDetail.unmapped ⟨2, 0x2000⟩ = false ∧
    PageFaultDetail.read ⟨2, 0x2000⟩ = true ∧
    PageFaultDetail.write ⟨2, 0x2000⟩ = false ∧
    PageFaultDetail.instruction_fetch ⟨0x8000, 0⟩ = true ∧
    PageFaultDetail.instruction_fetch ⟨0x7fff, 0⟩ = false := by
  refine ⟨?_, ?_, ?_, ?_, ?_, ?_, ?_, ?_⟩ <;> decide

/-- C5: both `flush_registers` and `commit_registers` force bit 1 of the
mirrored RFLAGS to 1 before the register state is written out, so for
every prior value of RFLAGS the committed value has bit 1 set. -/
theorem rflags_bit1_forced (r : KvmRegs) :
    (flushRegistersMirror r).rflags.testBit 1 = true ∧
    (commitRegistersMirror r).rflags.testBit 1 = true := by
  have h2 : (1 <<< 1).testBit 1 = true := by decide
  constructor <;>
    · simp only [flushRegistersMirror, commitRegistersMirror, Nat.testBit_or, h2,
        Bool.or_true]

/-- C10: `set_reg` is a total function (the source returns `()`, not a
`Result`), and it modifies only the register named by its argument: every
distinct register reads the same value before and after, and the special
registers, hypercall page and memory are untouched. -/
theorem set_reg_frame (s : Vm) (R S : Register) (V : Nat) :
    (R ≠ S → get_reg (set_reg s R V) S = get_reg s S) ∧
    (set_reg s R V).special_registers = s.special_registers ∧
    (set_reg s R V).hypercall_page = s.hypercall_page ∧
    (set_reg s R V).host_memory_size = s.host_memory_size ∧
    (∀ a, (set_reg s R V).pmem a = s.pmem a) := by
  refine ⟨?_, ?_, ?_, ?_, ?_⟩
  · intro h
    cases R <;> cases S <;> first
      | exact absurd rfl h
      | simp [set_reg, get_reg]
  · cases R <;> rfl
  · cases R <;> rfl
  · cases R <;> rfl
  · intro a; cases R <;> rfl

/-- C10 witness: a concrete instance of the frame property. -/
theorem set_reg_frame_witness :
    get_reg (set_reg ⟨⟨0, 0, 0, 0, 0, 0, 0, 0, 0, 0, 0, 0, 0, 0, 0, 0, 0, 0⟩,
      ⟨0, 0, 0, 0, 0, 0⟩, 0, 0, 0, 0, fun _ => 0⟩ Register.Rax 7) Register.Rbx =
    get_reg ⟨⟨0, 0, 0, 0, 0, 0, 0, 0, 0, 0, 0, 0, 0, 0, 0, 0, 0, 0⟩,
      ⟨0, 0, 0, 0, 0, 0⟩, 0, 0, 0, 0, fun _ => 0⟩ Register.Rbx :=
  (set_reg_frame _ Register.Rax Register.Rbx 7).1 (by decide)

/-- A concrete all-zero VM mirror state, used to instantiate theorems. -/
def zeroVm : Vm :=
  ⟨⟨0, 0, 0, 0, 0, 0, 0, 0, 0, 0, 0, 0, 0, 0, 0, 0, 0, 0⟩,
   ⟨0, 0, 0, 0, 0, 0⟩, 0, 0, 0, 0, fun _ => 0⟩

/-- C6 (amended): `get_reg` immediately after `set_reg (R, V)` returns `V`
for every register and value; and after an intervening `run()` whose guest
left R at the value it had at guest entry, the observed value is still `V`
for every register except RFLAGS, which is observed with bit 1 forced set
(`V ||| 2`), because `commit_registers` forces that bit before entry. -/
theorem register_roundtrip_run (s : Vm) (R : Register) (V : Nat)
    (guest : KvmRegs → KvmRegs) (gm : Nat → Nat → Nat × Nat)
    (hpreserve : get_reg (runPullRegs guest gm (set_reg s R V)) R =
      get_reg (committedState (set_reg s R V)) R) :
    get_reg (set_reg s R V) R = V ∧
    get_reg (runPullRegs guest gm (set_reg s R V)) R =
      if R = Register.Rflags then V ||| (1 <<< 1) else V := by
  constructor
  · cases R <;> rfl
  · rw [hpreserve]
    cases R <;>
      simp [committedState, set_reg, get_reg, commitRegistersMirror]

/-- C6 witness: concrete instance of the amended round-trip at `Rax`. -/
theorem register_roundtrip_run_witness :
    get_reg (set_reg zeroVm Register.Rax 5) Register.Rax = 5 ∧
    get_reg (runPullRegs (fun r => r) (fun a b => (a, b))
        (set_reg zeroVm Register.Rax 5)) Register.Rax =
      if Register.Rax = Register.Rflags then 5 ||| (1 <<< 1) else 5 :=
  register_roundtrip_run zeroVm Register.Rax 5 (fun r => r) (fun a b => (a, b))
    (by decide)

/-- C6 counterexample: set RFLAGS to 0, run a guest that modifies nothing
(identity on the synchronized registers and on the MSR pair): the guest
left RFLAGS exactly as it was at entry, yet `get_reg` observes 2, not the
value 0 that was set — the claim as stated fails at R = Rflags, V = 0. -/
theorem register_roundtrip_counterexample :
    (get_reg (runPullRegs (fun r => r) (fun a b => (a, b))
        (set_reg zeroVm Register.Rflags 0)) Register.Rflags =
      get_reg (committedState (set_reg zeroVm Register.Rflags 0))
        Register.Rflags) ∧
    get_reg (runPullRegs (fun r => r) (fun a b => (a, b))
        (set_reg zeroVm Register.Rflags 0)) Register.Rflags = 2 ∧
    (2 : Nat) ≠ 0 := by
  refine ⟨by decide, by decide, by decide⟩

/-- Modelled from the spec: `ExceptionFrame` from the `x64` collaborator
crate — the CPU-pushed frame `{RIP, CS, RFLAGS, RSP, SS}` read back by the
dispatcher. -/
structure ExceptionFrame where
  rip : Nat
  cs : Nat
  rflags : Nat
  rsp : Nat
  ss : Nat
deriving Repr, DecidableEq

/-- Modelled from the spec: the fallible guest-memory reads of the
`VirtualMemory` collaborator used by the dispatcher — `read_val::<u64>`,
`read_val::<ExceptionFrame>` and a two-byte `read`, each returning `none`
on a mapping or permission error. -/
structure GuestMem where
  readU64 : Nat → Option Nat
  readFrame : Nat → Option ExceptionFrame
  readBytes2 : Nat → Option (Nat × Nat)

/-- Modelled from the spec: the `ExceptionType` variants of the `x64`
collaborator crate named by the dispatcher, every other vector collapsed
into `Other`. -/
inductive ExceptionType where
  | InvalidOpcode
  | DoubleFault
  | InvalidTSS
  | SegmentNotPresent
  | StackFault
  | GeneralProtection
  | PageFault
  | AlignmentCheck
  | ControlProtection
  | Other (vector : Nat)
deriving Repr, DecidableEq

/-- Modelled from the spec: `ExceptionType::from(u64)` with the x86 vector
numbering the spec states — invalid opcode 6, and "8, 10, 11, 12, 13, 14,
17, 21 (double-fault, invalid TSS, segment-not-present, stack-fault,
general-protection, page-fault, alignment-check, control-protection)". -/
def ExceptionType.ofNat (v : Nat) : ExceptionType :=
  if v = 6 then ExceptionType.InvalidOpcode
  else if v = 8 then ExceptionType.DoubleFault
  else if v = 10 then ExceptionType.InvalidTSS
  else if v = 11 then ExceptionType.SegmentNotPresent
  else if v = 12 then ExceptionType.StackFault
  else if v = 13 then ExceptionType.GeneralProtection
  else if v = 14 then ExceptionType.PageFault
  else if v = 17 then ExceptionType.AlignmentCheck
  else if v = 21 then ExceptionType.ControlProtection
  else ExceptionType.Other v

/-- The error-code discrimination of `Vm::run` (src/vm/src/vm.rs lines
737-749): the vectors whose match arm reads an error code. -/
def vectorHasErrorCode (t : ExceptionType) : Bool :=
  match t with
  | ExceptionType.DoubleFault | ExceptionType.InvalidTSS
  | ExceptionType.SegmentNotPresent | ExceptionType.StackFault
  | ExceptionType.GeneralProtection | ExceptionType.PageFault
  | ExceptionType.AlignmentCheck | ExceptionType.ControlProtection => true
  | _ => false

/-- The vector translation of `Vm::run` (src/vm/src/vm.rs lines 761-795),
applied after the register context was reset to the exception frame:
page fault builds `PageFault { status: error_code as u32, address: cr2 }`;
invalid opcode reads two bytes at the restored RIP and synthesizes
`Syscall` (RIP advanced by 2) exactly when they are `0F 05`; every other
vector becomes `Exception(vector)`. -/
def classifyVector (mem : GuestMem) (cr2 : Nat) (exceptionCode : Nat)
    (errorCode : Option Nat) (regs : KvmRegs) : KvmRegs × VmExit :=
  match ExceptionType.ofNat exceptionCode with
  | ExceptionType.PageFault =>
    (regs, VmExit.PageFault ⟨(errorCode.getD 0) % 2 ^ 32, cr2⟩)
  | ExceptionType.InvalidOpcode =>
    match mem.readBytes2 regs.rip with
    | some (b0, b1) =>
      if b0 = 0x0f ∧ b1 = 0x05 then
        ({ regs with rip := regs.rip + 2 }, VmExit.Syscall)
      else (regs, VmExit.InvalidInstruction)
    | none => (regs, VmExit.InvalidInstruction)
  | _ => (regs, VmExit.Exception exceptionCode)

/-- The exception-forwarding path of `Vm::run` (src/vm/src/vm.rs lines
733-795), entered when RIP lies inside the hypercall region on a `Hlt`
exit: read the vector at RSP, read the error code at RSP+8 when the vector
carries one, read the `ExceptionFrame` at RSP+16 (with error code) or
RSP+8 (without), reset RSP/RIP from the frame, then translate the vector.
Failed `read_val`s propagate as `MemoryError` through `?`. -/
def dispatchException (mem : GuestMem) (cr2 : Nat) (regs : KvmRegs) :
    Except VmError (KvmRegs × VmExit) :=
  match mem.readU64 regs.rsp with
  | none => Except.error VmError.MemoryError
  | some exceptionCode =>
    let ecRead : Except VmError (Option Nat) :=
      if vectorHasErrorCode (ExceptionType.ofNat exceptionCode) then
        match mem.readU64 (regs.rsp + 8) with
        | none => Except.error VmError.MemoryError
        | some e => Except.ok (some e)
      else Except.ok none
    match ecRead with
    | Except.error e => Except.error e
    | Except.ok errorCode =>
      let frameAddr := if errorCode.isSome then regs.rsp + 16 else regs.rsp + 8
      match mem.readFrame frameAddr with
      | none => Except.error VmError.MemoryError
      | some frame =>
        Except.ok (classifyVector mem cr2 exceptionCode errorCode
          { regs with rsp := frame.rsp, rip := frame.rip })

/-- The `Hlt` arm of `Vm::run`'s exit classification (src/vm/src/vm.rs
lines 725-735): forward the halt when RIP is outside the hypercall region,
otherwise dispatch the forwarded exception. -/
def handleHlt (mem : GuestMem) (hypercallPage : Nat) (cr2 : Nat)
    (regs : KvmRegs) : Except VmError (KvmRegs × VmExit) :=
  if regs.rip < hypercallPage ∨ regs.rip ≥ hypercallPage + PAGE_SIZE then
    Except.ok (regs, VmExit.Hlt)
  else dispatchException mem cr2 regs

/-- Helper: the vector translation step never produces a `Hlt` exit. -/
theorem classifyVector_ne_hlt (mem : GuestMem) (cr2 code : Nat)
    (ec : Option Nat) (regs : KvmRegs) :
    (classifyVector mem cr2 code ec regs).2 ≠ VmExit.Hlt := by
  unfold classifyVector
  cases hET : ExceptionType.ofNat code <;> simp only
  case InvalidOpcode =>
    cases hb : mem.readBytes2 regs.rip with
    | none => simp
    | some p =>
      obtain ⟨b0, b1⟩ := p
      by_cases hc : b0 = 0x0f ∧ b1 = 0x05 <;> simp [hc]
  all_goals simp

/-- Helper: the exception-forwarding dispatch never produces a `Hlt`
exit. -/
theorem dispatchException_ne_hlt (mem : GuestMem) (cr2 : Nat)
    (regs : KvmRegs) (out : KvmRegs × VmExit)
    (h : dispatchException mem cr2 regs = Except.ok out) :
    out.2 ≠ VmExit.Hlt := by
  unfold dispatchException at h
  split at h
  · exact absurd h (by simp)
  · dsimp only at h
    split at h
    · exact absurd h (by simp)
    · split at h
      · exact absurd h (by simp)
      · rw [Except.ok.injEq] at h
        rw [← h]
        exact classifyVector_ne_hlt _ _ _ _ _

/-- C3: on a `Hlt` vmexit, `run` reports `VmExit::Hlt` exactly when the
guest RIP lies outside `[hypercall_page, hypercall_page + PAGE_SIZE)`;
when RIP lies inside that interval the handler instead runs the exception
dispatch (which begins by reading the vector at RSP) and that dispatch can
never produce `VmExit::Hlt`. -/
theorem hlt_classification (mem : GuestMem) (hp cr2 : Nat) (regs : KvmRegs) :
    (handleHlt mem hp cr2 regs = Except.ok (regs, VmExit.Hlt) ↔
      (regs.rip < hp ∨ regs.rip ≥ hp + PAGE_SIZE)) ∧
    (hp ≤ regs.rip ∧ regs.rip < hp + PAGE_SIZE →
      handleHlt mem hp cr2 regs = dispatchException mem cr2 regs ∧
      ∀ out, dispatchException mem cr2 regs = Except.ok out →
        out.2 ≠ VmExit.Hlt) := by
  constructor
  · constructor
    · intro h
      by_contra hcond
      rw [handleHlt, if_neg hcond] at h
      exact dispatchException_ne_hlt mem cr2 regs (regs, VmExit.Hlt) h rfl
    · intro hcond
      rw [handleHlt, if_pos hcond]
  · intro hin
    have hcond : ¬(regs.rip < hp ∨ regs.rip ≥ hp + PAGE_SIZE) := by omega
    exact ⟨by rw [handleHlt, if_neg hcond],
      fun out h => dispatchException_ne_hlt mem cr2 regs out h⟩

/-- A guest-memory oracle on which every read fails. -/
def memNone : GuestMem := ⟨fun _ => none, fun _ => none, fun _ => none⟩

/-- A register file that is zero except for RSP and RIP. -/
def mkRegs (rsp rip : Nat) : KvmRegs :=
  ⟨0, 0, 0, 0, 0, 0, rsp, 0, 0, 0, 0, 0, 0, 0, 0, 0, rip, 0⟩

/-- C3 witness: with RIP inside the hypercall page the handler runs the
dispatch (and the dispatch never reports `Hlt`). -/
theorem hlt_classification_witness :
    handleHlt memNone 0x1000 0 (mkRegs 0 0x1000) =
      dispatchException memNone 0 (mkRegs 0 0x1000) ∧
    ∀ out, dispatchException memNone 0 (mkRegs 0 0x1000) = Except.ok out →
      out.2 ≠ VmExit.Hlt :=
  (hlt_classification memNone 0x1000 0 (mkRegs 0 0x1000)).2
    ⟨by decide, by decide⟩

/-- Helper: unfolding of the dispatch for a vector without an error code:
the frame is read at RSP+8 and RSP/RIP are reset from it before the vector
is translated. -/
theorem dispatch_without_error_code (mem : GuestMem) (cr2 : Nat)
    (regs : KvmRegs) (v : Nat) (frame : ExceptionFrame)
    (hv : mem.readU64 regs.rsp = some v)
    (hvec : vectorHasErrorCode (ExceptionType.ofNat v) = false)
    (hf : mem.readFrame (regs.rsp + 8) = some frame) :
    dispatchException mem cr2 regs =
      Except.ok (classifyVector mem cr2 v none
        { regs with rsp := frame.rsp, rip := frame.rip }) := by
  unfold dispatchException
  rw [hv]
  dsimp only
  rw [hvec]
  simp only [Bool.false_eq_true, if_false, Option.isSome_none, hf]

/-- Helper: unfolding of the dispatch for a vector with an error code: the
error code is read at RSP+8, the frame at RSP+16, and RSP/RIP are reset
from the frame before the vector is translated. -/
theorem dispatch_with_error_code (mem : GuestMem) (cr2 : Nat)
    (regs : KvmRegs) (v e : Nat) (frame : ExceptionFrame)
    (hv : mem.readU64 regs.rsp = some v)
    (hvec : vectorHasErrorCode (ExceptionType.ofNat v) = true)
    (he : mem.readU64 (regs.rsp + 8) = some e)
    (hf : mem.readFrame (regs.rsp + 16) = some frame) :
    dispatchException mem cr2 regs =
      Except.ok (classifyVector mem cr2 v (some e)
        { regs with rsp := frame.rsp, rip := frame.rip }) := by
  unfold dispatchException
  rw [hv]
  dsimp only
  rw [hvec]
  simp only [if_true, he, Option.isSome_some, hf]

/-- C2: for a forwarded vector 6 (invalid opcode) the dispatcher reads two
bytes at the RIP restored from the exception frame; if the read succeeds
and the bytes are `0F 05` the mirrored RIP is advanced by exactly 2 and
the exit is `Syscall`; if the bytes differ or the read fails the exit is
`InvalidInstruction` and RIP stays at the restored value. -/
theorem invalid_opcode_syscall (mem : GuestMem) (cr2 : Nat) (regs : KvmRegs)
    (frame : ExceptionFrame)
    (hv : mem.readU64 regs.rsp = some 6)
    (hf : mem.readFrame (regs.rsp + 8) = some frame) :
    (∀ b0 b1, mem.readBytes2 frame.rip = some (b0, b1) →
      (b0 = 0x0f ∧ b1 = 0x05 →
        dispatchException mem cr2 regs = Except.ok
          ({ regs with rsp := frame.rsp, rip := frame.rip + 2 },
            VmExit.Syscall)) ∧
      (¬(b0 = 0x0f ∧ b1 = 0x05) →
        dispatchException mem cr2 regs = Except.ok
          ({ regs with rsp := frame.rsp, rip := frame.rip },
            VmExit.InvalidInstruction))) ∧
    (mem.readBytes2 frame.rip = none →
      dispatchException mem cr2 regs = Except.ok
        ({ regs with rsp := frame.rsp, rip := frame.rip },
          VmExit.InvalidInstruction)) := by
  have hstep := dispatch_without_error_code mem cr2 regs 6 frame hv (by decide) hf
  have h6 : ExceptionType.ofNat 6 = ExceptionType.InvalidOpcode := by decide
  have hrip : ({ regs with rsp := frame.rsp, rip := frame.rip } : KvmRegs).rip =
      frame.rip := rfl
  constructor
  · intro b0 b1 hb
    constructor
    · intro hc
      rw [hstep]
      simp only [classifyVector, h6, hrip, hb]
      rw [if_pos hc]
    · intro hc
      rw [hstep]
      simp only [classifyVector, h6, hrip, hb]
      rw [if_neg hc]
  · intro hb
    rw [hstep]
    simp only [classifyVector, h6, hrip, hb]

/-- A guest-memory oracle holding a forwarded vector 6 at RSP = 0x7f00, an
exception frame at 0x7f08 whose saved RIP points at a `0F 05` (syscall)
instruction, mirroring the end of the trampoline protocol. -/
def memSyscall : GuestMem :=
  ⟨fun a => if a = 0x7f00 then some 6 else none,
   fun a => if a = 0x7f08 then some ⟨0x1337000, 8, 2, 0x7000, 0⟩ else none,
   fun a => if a = 0x1337000 then some (0x0f, 0x05) else none⟩

/-- C2 witness: the concrete syscall synthesis — vector 6, bytes `0F 05`
at the restored RIP, exit `Syscall` with RIP advanced by 2. -/
theorem invalid_opcode_syscall_witness :
    dispatchException memSyscall 0 (mkRegs 0x7f00 0) = Except.ok
      ({ mkRegs 0x7f00 0 with rsp := 0x7000, rip := 0x1337000 + 2 },
        VmExit.Syscall) :=
  (((invalid_opcode_syscall memSyscall 0 (mkRegs 0x7f00 0)
      ⟨0x1337000, 8, 2, 0x7000, 0⟩ rfl rfl).1 0x0f 0x05 rfl).1 ⟨rfl, rfl⟩)

/-- C4: an error code is read (at RSP+8) if and only if the forwarded
vector is one of {8, 10, 11, 12, 13, 14, 17, 21}; the exception frame is
read at RSP+16 when an error code is present and at RSP+8 otherwise; and
the mirrored RSP and RIP are then reset to the frame's `rsp` and `rip`
fields before the vector is translated (no other register — in particular
neither CS nor RFLAGS — is reconstructed). -/
theorem error_code_vectors (mem : GuestMem) (cr2 : Nat) (regs : KvmRegs)
    (v : Nat) (hv : mem.readU64 regs.rsp = some v) :
    (vectorHasErrorCode (ExceptionType.ofNat v) = true ↔
      v ∈ [8, 10, 11, 12, 13, 14, 17, 21]) ∧
    (v ∈ [8, 10, 11, 12, 13, 14, 17, 21] →
      ∀ e frame, mem.readU64 (regs.rsp + 8) = some e →
        mem.readFrame (regs.rsp + 16) = some frame →
        dispatchException mem cr2 regs = Except.ok
          (classifyVector mem cr2 v (some e)
            { regs with rsp := frame.rsp, rip := frame.rip })) ∧
    (v ∉ [8, 10, 11, 12, 13, 14, 17, 21] →
      ∀ frame, mem.readFrame (regs.rsp + 8) = some frame →
        dispatchException mem cr2 regs = Except.ok
          (classifyVector mem cr2 v none
            { regs with rsp := frame.rsp, rip := frame.rip })) := by
  have hiff : vectorHasErrorCode (ExceptionType.ofNat v) = true ↔
      v ∈ [8, 10, 11, 12, 13, 14, 17, 21] := by
    unfold ExceptionType.ofNat
    split_ifs <;> simp_all [vectorHasErrorCode]
  refine ⟨hiff, ?_, ?_⟩
  · intro hmem e frame he hf
    exact dispatch_with_error_code mem cr2 regs v e frame hv (hiff.mpr hmem) he hf
  · intro hmem frame hf
    have hfalse : vectorHasErrorCode (ExceptionType.ofNat v) = false := by
      cases hcase : vectorHasErrorCode (ExceptionType.ofNat v)
      · rfl
      · exact absurd (hiff.mp hcase) hmem
    exact dispatch_without_error_code mem cr2 regs v frame hv hfalse hf

/-- A guest-memory oracle holding a forwarded vector 13 (general
protection) at RSP = 0x7f00, its error code at 0x7f08 and the exception
frame at 0x7f10. -/
def memGp : GuestMem :=
  ⟨fun a => if a = 0x7f00 then some 13 else if a = 0x7f08 then some 0x55 else none,
   fun a => if a = 0x7f10 then some ⟨0x400000, 8, 2, 0x7000, 0⟩ else none,
   fun _ => none⟩

/-- C4 witness: the concrete error-code-bearing dispatch at vector 13. -/
theorem error_code_vectors_witness :
    dispatchException memGp 0 (mkRegs 0x7f00 0) = Except.ok
      (classifyVector memGp 0 13 (some 0x55)
        { mkRegs 0x7f00 0 with rsp := 0x7000, rip := 0x400000 }) :=
  (error_code_vectors memGp 0 (mkRegs 0x7f00 0) 13 rfl).2.1 (by decide)
    0x55 ⟨0x400000, 8, 2, 0x7000, 0⟩ rfl rfl

/-- The fixed control-structure base addresses of
`setup_exception_handling` (src/vm/src/vm.rs lines 378-382 and
src/vm2/src/vm.rs lines 193-197). -/
def IDT_ADDRESS : Nat := 0xffffffffff000000

/-- The trampoline (hypercall) page base: `IDT_ADDRESS + PAGE_SIZE`. -/
def IDT_HANDLERS : Nat := IDT_ADDRESS + PAGE_SIZE

/-- `self.hypercall_page = IDT_HANDLERS` (src/vm/src/vm.rs line 442). -/
def vm_hypercall_page : Nat := IDT_HANDLERS

/-- Modelled from the spec: `VirtualMemory::write` of the memory
collaborator storing a byte slice at consecutive virtual addresses. -/
def writeBytesM : (Nat → Nat) → Nat → List Nat → (Nat → Nat)
  | m, _, [] => m
  | m, addr, b :: rest =>
    writeBytesM (fun a => if a = addr then b else m a) (addr + 1) rest

/-- `handler_code` of the trampoline loop (src/vm/src/vm.rs lines 446-449):
`[0x6a, i as u8, 0xf4]`, i.e. `push imm8 i; hlt`. -/
def handler_code (i : Nat) : List Nat := [0x6a, i % 256, 0xf4]

/-- One-step fold of the trampoline write loop over an explicit index
list. -/
def handlersFold (base : Nat) (l : List Nat) (m : Nat → Nat) : Nat → Nat :=
  l.foldl (fun acc i => writeBytesM acc (base + i * 32) (handler_code i)) m

/-- The trampoline write loop of `setup_exception_handling`
(src/vm/src/vm.rs lines 445-452, identical in src/vm2/src/vm.rs lines
250-257): `for i in 0..32 { write(IDT_HANDLERS + i*32, handler_code) }`. -/
def writeHandlers (base : Nat) (m : Nat → Nat) : Nat → Nat :=
  handlersFold base (List.range 32) m

/-- Helper: a byte-slice write leaves addresses outside its range
unchanged. -/
theorem writeBytesM_out (bs : List Nat) (m : Nat → Nat) (addr a : Nat)
    (h : a < addr ∨ addr + bs.length ≤ a) : writeBytesM m addr bs a = m a := by
  induction bs generalizing m addr with
  | nil => rfl
  | cons b rest ih =>
    simp only [writeBytesM]
    rw [ih]
    · have hne : a ≠ addr := by
        rcases h with h | h
        · omega
        · simp only [List.length_cons] at h; omega
      rw [if_neg hne]
    · rcases h with h | h
      · exact Or.inl (by omega)
      · simp only [List.length_cons] at h
        exact Or.inr (by omega)

/-- Helper: a byte-slice write stores byte `k` of the slice at
`addr + k`. -/
theorem writeBytesM_at (bs : List Nat) (m : Nat → Nat) (addr k : Nat)
    (h : k < bs.length) : writeBytesM m addr bs (addr + k) = bs.getD k 0 := by
  induction bs generalizing m addr k with
  | nil => simp at h
  | cons b rest ih =>
    cases k with
    | zero =>
      simp only [writeBytesM]
      rw [writeBytesM_out rest _ (addr + 1) (addr + 0) (Or.inl (by omega))]
      simp
    | succ k2 =>
      simp only [writeBytesM]
      have harith : addr + (k2 + 1) = (addr + 1) + k2 := by omega
      rw [harith, ih]
      · simp [List.getD]
      · simp only [List.length_cons] at h; omega

/-- Helper: the trampoline write loop leaves addresses belonging to no
handler slot unchanged. -/
theorem handlersFold_out (base : Nat) (l : List Nat) (m : Nat → Nat)
    (a : Nat)
    (h : ∀ j ∈ l, ¬(base + j * 32 ≤ a ∧ a < base + j * 32 + 3)) :
    handlersFold base l m a = m a := by
  induction l generalizing m with
  | nil => rfl
  | cons j t ih =>
    show handlersFold base t (writeBytesM m (base + j * 32) (handler_code j)) a = m a
    rw [ih _ fun j2 hj2 => h j2 (List.mem_cons_of_mem _ hj2)]
    apply writeBytesM_out
    have := h j (List.mem_cons_self _ _)
    simp only [handler_code, List.length_cons, List.length_nil]
    omega

/-- Helper: after the trampoline write loop, byte `k` of handler `i`'s
slot holds byte `k` of `handler_code i`. -/
theorem handlersFold_at (base : Nat) (l : List Nat) (m : Nat → Nat)
    (i k : Nat) (hk : k < 3) (hi : i ∈ l) (hnd : l.Nodup) :
    handlersFold base l m (base + i * 32 + k) = (handler_code i).getD k 0 := by
  induction l generalizing m with
  | nil => cases hi
  | cons j t ih =>
    show handlersFold base t (writeBytesM m (base + j * 32) (handler_code j))
      (base + i * 32 + k) = (handler_code i).getD k 0
    rcases List.mem_cons.mp hi with heq | hmem
    · subst heq
      have hnotin : i ∉ t := (List.nodup_cons.mp hnd).1
      rw [handlersFold_out base t _ _ ?_]
      · have hlen : k < (handler_code i).length := by
          simp only [handler_code, List.length_cons, List.length_nil]; omega
        have := writeBytesM_at (handler_code i) m (base + i * 32) k hlen
        rw [Nat.add_assoc] at this
        rw [Nat.add_assoc]
        exact this
      · intro j2 hj2 hcontra
        have : j2 = i := by omega
        exact hnotin (this ▸ hj2)
    · exact ih _ hmem (List.nodup_cons.mp hnd).2

/-- C8: after the trampoline loop of `setup_exception_handling`, for every
vector `i < 32` the three bytes at trampoline-page offset `i*32` are
exactly `6a, i, f4` (`push imm8 i; hlt`), whatever the page held before;
each handler occupies 3 bytes at stride 32 and lies wholly inside the
single page `[IDT_HANDLERS, IDT_HANDLERS + PAGE_SIZE)` recorded as
`hypercall_page`. -/
theorem trampoline_layout (m : Nat → Nat) (i : Nat) (hi : i < 32) :
    (writeHandlers IDT_HANDLERS m (IDT_HANDLERS + i * 32) = 0x6a ∧
     writeHandlers IDT_HANDLERS m (IDT_HANDLERS + i * 32 + 1) = i ∧
     writeHandlers IDT_HANDLERS m (IDT_HANDLERS + i * 32 + 2) = 0xf4) ∧
    (i * 32 + 3 ≤ PAGE_SIZE ∧ vm_hypercall_page = IDT_HANDLERS) := by
  have hmem : i ∈ List.range 32 := List.mem_range.mpr hi
  have hnd : (List.range 32).Nodup := List.nodup_range _
  have h0 := handlersFold_at IDT_HANDLERS (List.range 32) m i 0 (by omega) hmem hnd
  have h1 := handlersFold_at IDT_HANDLERS (List.range 32) m i 1 (by omega) hmem hnd
  have h2 := handlersFold_at IDT_HANDLERS (List.range 32) m i 2 (by omega) hmem hnd
  rw [Nat.add_zero] at h0
  have hmod : i % 256 = i := Nat.mod_eq_of_lt (by omega)
  refine ⟨⟨?_, ?_, ?_⟩, ?_, rfl⟩
  · rw [writeHandlers, h0]; rfl
  · rw [writeHandlers, h1]; simp [handler_code, hmod]
  · rw [writeHandlers, h2]; rfl
  · show i * 32 + 3 ≤ 4096
    omega

/-- C8 witness: the concrete trampoline facts at vector 5. -/
theorem trampoline_layout_witness :
    (writeHandlers IDT_HANDLERS (fun _ => 0) (IDT_HANDLERS + 5 * 32) = 0x6a ∧
     writeHandlers IDT_HANDLERS (fun _ => 0) (IDT_HANDLERS + 5 * 32 + 1) = 5 ∧
     writeHandlers IDT_HANDLERS (fun _ => 0) (IDT_HANDLERS + 5 * 32 + 2) = 0xf4) ∧
    (5 * 32 + 3 ≤ PAGE_SIZE ∧ vm_hypercall_page = IDT_HANDLERS) :=
  trampoline_layout (fun _ => 0) 5 (by decide)

/-- GDT page base: `IDT_ADDRESS + PAGE_SIZE * 2`. -/
def GDT_ADDRESS : Nat := IDT_ADDRESS + PAGE_SIZE * 2

/-- The special-register updates of `setup_exception_handling` in
src/vm/src/vm.rs that install the descriptor tables: `gdt.base/limit`
(lines 406-407) and `idt.base/limit` (lines 474-475), with
`entries_size = 32 * size_of::<IdtEntry>()` (lines 458-459) and the
`as u16` truncation of the limit. -/
def setupExceptionSregs_vm (idtEntrySize : Nat) (s : KvmSregs) : KvmSregs :=
  { s with gdtBase := GDT_ADDRESS, gdtLimit := 8 * 3 - 1,
           idtBase := IDT_ADDRESS,
           idtLimit := (32 * idtEntrySize - 1) % 65536 }

/-- The corresponding updates in src/vm2/src/vm.rs (lines 279-282):
`idt.base/limit` as in vm, but `gdt.limit = 0xFF`. -/
def setupExceptionSregs_vm2 (idtEntrySize : Nat) (s : KvmSregs) : KvmSregs :=
  { s with idtBase := IDT_ADDRESS,
           idtLimit := (32 * idtEntrySize - 1) % 65536,
           gdtBase := GDT_ADDRESS, gdtLimit := 0xFF }

/-- C9 counterexample: the bootstrap of src/vm2/src/vm.rs (cited by the
claim) stores GDT limit `0xFF`, not `8*3 - 1 = 23`. -/
theorem gdt_limit_vm2_counterexample :
    (setupExceptionSregs_vm2 16 ⟨0, 0, 0, 0, 0, 0⟩).gdtLimit = 0xFF ∧
    (setupExceptionSregs_vm2 16 ⟨0, 0, 0, 0, 0, 0⟩).gdtLimit ≠ 8 * 3 - 1 := by
  exact ⟨rfl, by decide⟩

/-- C9 (amended): after the exception infrastructure is built, the vm
bootstrap stores GDT limit `8*3 - 1` and IDT limit
`32 * sizeof(IdtEntry) - 1`; the vm2 bootstrap stores the same IDT limit
but GDT limit `0xFF`. -/
theorem descriptor_table_limits (s : KvmSregs) (idtEntrySize : Nat)
    (h : 32 * idtEntrySize - 1 < 65536) :
    (setupExceptionSregs_vm idtEntrySize s).gdtLimit = 8 * 3 - 1 ∧
    (setupExceptionSregs_vm idtEntrySize s).idtLimit =
      32 * idtEntrySize - 1 ∧
    (setupExceptionSregs_vm2 idtEntrySize s).idtLimit =
      32 * idtEntrySize - 1 ∧
    (setupExceptionSregs_vm2 idtEntrySize s).gdtLimit = 0xFF := by
  refine ⟨rfl, ?_, ?_, rfl⟩ <;>
    simp [setupExceptionSregs_vm, setupExceptionSregs_vm2, Nat.mod_eq_of_lt h]

/-- C9 witness: the concrete limits with the 16-byte x86-64 IDT entry
size: GDT limit 23, IDT limit 511. -/
theorem descriptor_table_limits_witness :
    (setupExceptionSregs_vm 16 ⟨0, 0, 0, 0, 0, 0⟩).gdtLimit = 8 * 3 - 1 ∧
    (setupExceptionSregs_vm 16 ⟨0, 0, 0, 0, 0, 0⟩).idtLimit = 32 * 16 - 1 ∧
    (setupExceptionSregs_vm2 16 ⟨0, 0, 0, 0, 0, 0⟩).idtLimit = 32 * 16 - 1 ∧
    (setupExceptionSregs_vm2 16 ⟨0, 0, 0, 0, 0, 0⟩).gdtLimit = 0xFF :=
  descriptor_table_limits ⟨0, 0, 0, 0, 0, 0⟩ 16 (by decide)

/-- `u64::trailing_zeros` as used by the reset loop: the index of the
least-significant set bit (0 for the zero word, whose loop is never
entered). -/
def trailingZeros (n : Nat) : Nat :=
  if h : n = 0 then 0
  else if n % 2 = 1 then 0
  else trailingZeros (n / 2) + 1
termination_by n
decreasing_by omega

/-- Helper: the trailing-zero index of a nonzero word is a set bit. -/
theorem testBit_trailingZeros : ∀ n, n ≠ 0 → n.testBit (trailingZeros n) = true := by
  intro n
  induction n using Nat.strong_induction_on with
  | _ n ih =>
    intro h
    unfold trailingZeros
    rw [dif_neg h]
    by_cases hodd : n % 2 = 1
    · rw [if_pos hodd, Nat.testBit_zero]
      simp [hodd]
    · rw [if_neg hodd, Nat.testBit_succ]
      exact ih (n / 2) (by omega) (by omega)

/-- Helper: `bm &= bm - 1` clears exactly the trailing set bit. -/
theorem testBit_and_pred : ∀ n, n ≠ 0 → ∀ j,
    (n &&& (n - 1)).testBit j =
      (n.testBit j && decide (j ≠ trailingZeros n)) := by
  intro n
  induction n using Nat.strong_induction_on with
  | _ n ih =>
    intro h j
    rw [Nat.testBit_and]
    by_cases hodd : n % 2 = 1
    · have htz : trailingZeros n = 0 := by
        unfold trailingZeros; rw [dif_neg h, if_pos hodd]
      rw [htz]
      cases j with
      | zero =>
        have : (n - 1).testBit 0 = false := by
          rw [Nat.testBit_zero]; simp; omega
        simp [this]
      | succ j2 =>
        have h1 : (n - 1).testBit (j2 + 1) = (n / 2).testBit j2 := by
          rw [Nat.testBit_succ]
          have : (n - 1) / 2 = n / 2 := by omega
          rw [this]
        rw [h1, Nat.testBit_succ]
        simp [Bool.and_self]
    · have hk : n / 2 ≠ 0 := by omega
      have htz : trailingZeros n = trailingZeros (n / 2) + 1 := by
        conv_lhs => rw [trailingZeros]
        rw [dif_neg h, if_neg hodd]
      rw [htz]
      cases j with
      | zero =>
        have : n.testBit 0 = false := by rw [Nat.testBit_zero]; simp; omega
        simp [this]
      | succ j2 =>
        have h1 : (n - 1).testBit (j2 + 1) = (n / 2 - 1).testBit j2 := by
          rw [Nat.testBit_succ]
          have : (n - 1) / 2 = n / 2 - 1 := by omega
          rw [this]
        have h2 := ih (n / 2) (by omega) hk j2
        rw [Nat.testBit_and] at h2
        rw [h1, Nat.testBit_succ, h2]
        have : (decide (j2 + 1 ≠ trailingZeros (n / 2) + 1)) =
            (decide (j2 ≠ trailingZeros (n / 2))) := by
          simp
        rw [this]

/-- The inner reset loop of `Vm::reset` (src/vm/src/vm.rs lines 896-917)
for one dirty-bitmap word: while `bm != 0`, take `i = bm.trailing_zeros()`,
restore the `PAGE_SIZE` bytes of physical page `base + i` (page address
`pa = (base + i) * PAGE_SIZE`) from the reference backing, and clear the
bit with `bm &= bm - 1`.  `none` models the `expect` panic when the page
lies outside the physical backing. -/
def copyWord (memsize : Nat) (mref : Nat → Nat) (base : Nat) :
    Nat → (Nat → Nat) → Option (Nat → Nat)
  | bm, m =>
    if hbm : bm = 0 then some m
    else
      let i := trailingZeros bm
      let pa := (base + i) * PAGE_SIZE
      if pa + PAGE_SIZE > memsize then none
      else
        copyWord memsize mref base (bm &&& (bm - 1))
          (fun a => if pa ≤ a ∧ a < pa + PAGE_SIZE then mref a else m a)
termination_by bm => bm
decreasing_by
  exact Nat.lt_of_le_of_lt Nat.and_le_right (by omega)

/-- Helper: the one-word reset loop restores exactly the pages whose bit
is set, byte for byte, and leaves every other byte unchanged. -/
theorem copyWord_spec (memsize : Nat) (mref : Nat → Nat) (base : Nat) :
    ∀ bm m,
    (∀ i, bm.testBit i = true → (base + i + 1) * PAGE_SIZE ≤ memsize) →
    copyWord memsize mref base bm m = some (fun a =>
      if base ≤ a / PAGE_SIZE ∧
          bm.testBit (a / PAGE_SIZE - base) = true then mref a
      else m a) := by
  intro bm
  induction bm using Nat.strong_induction_on with
  | _ bm ih =>
    intro m hrange
    by_cases hbm : bm = 0
    · subst hbm
      rw [copyWord, dif_pos rfl]
      congr 1
      funext a
      simp [Nat.zero_testBit]
    · have hbit : bm.testBit (trailingZeros bm) = true :=
        testBit_trailingZeros bm hbm
      have hpa : (base + trailingZeros bm) * PAGE_SIZE + PAGE_SIZE ≤ memsize := by
        have := hrange (trailingZeros bm) hbit
        simp only [PAGE_SIZE] at this ⊢
        omega
      rw [copyWord, dif_neg hbm]
      simp only
      rw [if_neg (by omega)]
      have hlt : bm &&& (bm - 1) < bm :=
        Nat.lt_of_le_of_lt Nat.and_le_right (by omega)
      have hsub : ∀ j, (bm &&& (bm - 1)).testBit j = true → bm.testBit j = true := by
        intro j hj
        rw [testBit_and_pred bm hbm j] at hj
        exact (Bool.and_eq_true_iff.mp hj).1
      rw [ih (bm &&& (bm - 1)) hlt _ (fun j hj => hrange j (hsub j hj))]
      congr 1
      funext a
      by_cases hc : base ≤ a / PAGE_SIZE ∧ bm.testBit (a / PAGE_SIZE - base) = true
      · rw [if_pos hc]
        by_cases heq : a / PAGE_SIZE - base = trailingZeros bm
        · have hz : (bm &&& (bm - 1)).testBit (a / PAGE_SIZE - base) = false := by
            rw [testBit_and_pred bm hbm, heq]
            simp
          rw [if_neg (by rw [hz]; simp)]
          have hdiv : a / PAGE_SIZE = base + trailingZeros bm := by omega
          have hin : (base + trailingZeros bm) * PAGE_SIZE ≤ a ∧
              a < (base + trailingZeros bm) * PAGE_SIZE + PAGE_SIZE := by
            simp only [PAGE_SIZE] at hdiv ⊢
            omega
          rw [if_pos ⟨hin.1, by simp only [PAGE_SIZE] at hin ⊢; omega⟩]
        · have hnz : (bm &&& (bm - 1)).testBit (a / PAGE_SIZE - base) = true := by
            rw [testBit_and_pred bm hbm]
            simp [hc.2, heq]
          rw [if_pos ⟨hc.1, hnz⟩]
      · rw [if_neg hc]
        have hz : ¬(base ≤ a / PAGE_SIZE ∧
            (bm &&& (bm - 1)).testBit (a / PAGE_SIZE - base) = true) := by
          intro ⟨h1, h2⟩
          exact hc ⟨h1, hsub _ h2⟩
        rw [if_neg hz]
        have hout : ¬((base + trailingZeros bm) * PAGE_SIZE ≤ a ∧
            a < (base + trailingZeros bm) * PAGE_SIZE + PAGE_SIZE) := by
          intro ⟨h1, h2⟩
          apply hc
          have hdiv : a / PAGE_SIZE = base + trailingZeros bm := by
            simp only [PAGE_SIZE] at h1 h2 ⊢
            omega
          constructor
          · omega
          · rw [hdiv]
            simpa using hbit
        rw [if_neg hout]

/-- The outer reset loop of `Vm::reset` (src/vm/src/vm.rs lines 893-918):
`for (bm_index, bm_entry) in dirty_log.iter().enumerate()` run the
one-word loop at page base `bm_index * 64`. -/
def resetPages (memsize : Nat) (mref : Nat → Nat) :
    List Nat → Nat → (Nat → Nat) → Option (Nat → Nat)
  | [], _, m => some m
  | w :: ws, idx, m =>
    match copyWord memsize mref (idx * 64) w m with
    | none => none
    | some m2 => resetPages memsize mref ws (idx + 1) m2

/-- Bit `p % 64` of word `p / 64` of the hypervisor dirty bitmap: the
dirty flag of guest page `p` ("bit `b` of word `w` corresponds to guest
page `w*64 + b`"). -/
def dirtyBit (log : List Nat) (p : Nat) : Bool :=
  (log.getD (p / 64) 0).testBit (p % 64)

/-- Helper: bits at or above the width bound are clear. -/
theorem testBit_ge_64 (w : Nat) (hw : w < 2 ^ 64) (i : Nat) (hi : 64 ≤ i) :
    w.testBit i = false :=
  Nat.testBit_lt_two_pow
    (Nat.lt_of_lt_of_le hw (Nat.pow_le_pow_right (by norm_num) hi))


/-- Helper: the outer reset loop restores exactly the pages whose dirty
bit is set in the suffix of the bitmap starting at word `idx`. -/
theorem resetPages_spec (memsize : Nat) (mref : Nat → Nat) :
    ∀ (ws : List Nat) (idx : Nat) (m : Nat → Nat),
    (∀ w ∈ ws, w < 2 ^ 64) →
    ((idx + ws.length) * 64 * PAGE_SIZE ≤ memsize) →
    resetPages memsize mref ws idx m = some (fun a =>
      if idx * 64 ≤ a / PAGE_SIZE ∧
          dirtyBit ws (a / PAGE_SIZE - idx * 64) = true then mref a
      else m a) := by
  intro ws
  induction ws with
  | nil =>
    intro idx m _ _
    show some m = _
    congr 1
    funext a
    simp [dirtyBit, Nat.zero_testBit]
  | cons w ws2 ih =>
    intro idx m hw hrange
    have hw64 : w < 2 ^ 64 := hw w (List.mem_cons_self _ _)
    have hlen : (idx + (ws2.length + 1)) * 64 * PAGE_SIZE ≤ memsize := by
      simpa using hrange
    have hcopyrange : ∀ i, w.testBit i = true →
        (idx * 64 + i + 1) * PAGE_SIZE ≤ memsize := by
      intro i hbit
      have hi64 : i < 64 := by
        by_contra hcon
        rw [testBit_ge_64 w hw64 i (by omega)] at hbit
        exact Bool.false_ne_true hbit
      simp only [PAGE_SIZE] at hlen ⊢
      omega
    have hihrange : (idx + 1 + ws2.length) * 64 * PAGE_SIZE ≤ memsize := by
      simp only [PAGE_SIZE] at hlen ⊢
      omega
    show (match copyWord memsize mref (idx * 64) w m with
      | none => none
      | some m2 => resetPages memsize mref ws2 (idx + 1) m2) = _
    rw [copyWord_spec memsize mref (idx * 64) w m hcopyrange]
    show resetPages memsize mref ws2 (idx + 1)
      (fun a => if idx * 64 ≤ a / PAGE_SIZE ∧
          w.testBit (a / PAGE_SIZE - idx * 64) = true then mref a else m a) = _
    rw [ih (idx + 1) _ (fun x hx => hw x (List.mem_cons_of_mem _ hx)) hihrange]
    congr 1
    funext a
    by_cases h1 : (idx + 1) * 64 ≤ a / PAGE_SIZE
    · -- the page belongs to a later word of the bitmap
      have hq : 64 ≤ a / PAGE_SIZE - idx * 64 := by omega
      have hdirty : dirtyBit ws2 (a / PAGE_SIZE - (idx + 1) * 64) =
          dirtyBit (w :: ws2) (a / PAGE_SIZE - idx * 64) := by
        have hqd : (a / PAGE_SIZE - (idx + 1) * 64) =
            (a / PAGE_SIZE - idx * 64) - 64 := by omega
        rw [hqd]
        unfold dirtyBit
        have hdiv : (a / PAGE_SIZE - idx * 64 - 64) / 64 =
            (a / PAGE_SIZE - idx * 64) / 64 - 1 := by omega
        have hmod : (a / PAGE_SIZE - idx * 64 - 64) % 64 =
            (a / PAGE_SIZE - idx * 64) % 64 := by omega
        rw [hdiv, hmod]
        obtain ⟨k, hk⟩ : ∃ k, (a / PAGE_SIZE - idx * 64) / 64 = k + 1 :=
          ⟨(a / PAGE_SIZE - idx * 64) / 64 - 1, by omega⟩
        rw [hk]
        simp [List.getD]
      by_cases h2 : dirtyBit ws2 (a / PAGE_SIZE - (idx + 1) * 64) = true
      · rw [if_pos (show (idx + 1) * 64 ≤ a / PAGE_SIZE ∧
            dirtyBit ws2 (a / PAGE_SIZE - (idx + 1) * 64) = true from ⟨h1, h2⟩),
          if_pos (show idx * 64 ≤ a / PAGE_SIZE ∧
            dirtyBit (w :: ws2) (a / PAGE_SIZE - idx * 64) = true from
            ⟨by omega, by rw [← hdirty]; exact h2⟩)]
      · have hbig : ¬dirtyBit (w :: ws2) (a / PAGE_SIZE - idx * 64) = true := by
          rw [← hdirty]; exact h2
        have hwbit : w.testBit (a / PAGE_SIZE - idx * 64) = false :=
          testBit_ge_64 w hw64 _ hq
        rw [if_neg (show ¬((idx + 1) * 64 ≤ a / PAGE_SIZE ∧
            dirtyBit ws2 (a / PAGE_SIZE - (idx + 1) * 64) = true) from
            fun hcon => h2 hcon.2),
          if_neg (show ¬(idx * 64 ≤ a / PAGE_SIZE ∧
            w.testBit (a / PAGE_SIZE - idx * 64) = true) from
            fun hcon => Bool.false_ne_true (hwbit ▸ hcon.2)),
          if_neg (show ¬(idx * 64 ≤ a / PAGE_SIZE ∧
            dirtyBit (w :: ws2) (a / PAGE_SIZE - idx * 64) = true) from
            fun hcon => hbig hcon.2)]
    · -- the page belongs to word idx, or lies below the suffix entirely
      rw [if_neg (fun hcon => h1 hcon.1)]
      by_cases h0 : idx * 64 ≤ a / PAGE_SIZE
      · have hq : a / PAGE_SIZE - idx * 64 < 64 := by omega
        have hdirty : dirtyBit (w :: ws2) (a / PAGE_SIZE - idx * 64) =
            w.testBit (a / PAGE_SIZE - idx * 64) := by
          unfold dirtyBit
          have hdiv : (a / PAGE_SIZE - idx * 64) / 64 = 0 := by omega
          have hmod : (a / PAGE_SIZE - idx * 64) % 64 =
              a / PAGE_SIZE - idx * 64 := by omega
          rw [hdiv, hmod]
          simp [List.getD]
        rw [hdirty]
      · rw [if_neg (fun hcon => h0 hcon.1), if_neg (fun hcon => h0 hcon.1)]

/-- `Vm::reset` (src/vm/src/vm.rs lines 870-935): copy the register mirror
(GPRs, SREGs, FS/GS base) from the reference, assert equal host memory
sizes, restore every page whose hypervisor dirty bit (slot 0) is set from
the reference's physical backing, then clear the dirty log.  `dirty_log`
is the bitmap returned by the hypervisor, `clearOk` the success of the
`KVM_CLEAR_DIRTY_LOG` ioctl; `none` models the panics (`assert_eq` size
mismatch, out-of-range page, failed clear). -/
def resetVm (self other : Vm) (dirty_log : List Nat) (clearOk : Bool) :
    Option Vm :=
  let s : Vm :=
    { self with
      registers := other.registers
      special_registers := other.special_registers
      fs_base := other.fs_base
      gs_base := other.gs_base }
  if s.host_memory_size ≠ other.host_memory_size then none
  else
    match resetPages s.host_memory_size other.pmem dirty_log 0 s.pmem with
    | none => none
    | some m2 => if clearOk then some { s with pmem := m2 } else none

/-- C7: `reset` panics when the two host memory sizes differ and when the
dirty-log clear fails; otherwise it copies the whole register mirror from
the reference and, for every set bit `b` of 64-bit word `w` of the slot-0
dirty bitmap, copies exactly the `PAGE_SIZE` bytes of the physical page
`w*64 + b` from the reference backing, leaving every byte of every page
whose bit is clear untouched. -/
theorem reset_spec (self other : Vm) (log : List Nat) :
    (∀ clearOk, self.host_memory_size ≠ other.host_memory_size →
      resetVm self other log clearOk = none) ∧
    (resetVm self other log false = none) ∧
    (self.host_memory_size = other.host_memory_size →
      (∀ w ∈ log, w < 2 ^ 64) →
      log.length * 64 * PAGE_SIZE ≤ self.host_memory_size →
      ∃ s2, resetVm self other log true = some s2 ∧
        s2.registers = other.registers ∧
        s2.special_registers = other.special_registers ∧
        s2.fs_base = other.fs_base ∧
        s2.gs_base = other.gs_base ∧
        s2.host_memory_size = self.host_memory_size ∧
        s2.hypercall_page = self.hypercall_page ∧
        ∀ a, s2.pmem a = if dirtyBit log (a / PAGE_SIZE) = true
          then other.pmem a else self.pmem a) := by
  refine ⟨?_, ?_, ?_⟩
  · intro clearOk hne
    unfold resetVm
    dsimp only
    rw [if_pos hne]
  · unfold resetVm
    dsimp only
    split
    · rfl
    · split
      · rfl
      · rfl
  · intro heq hw hlen
    unfold resetVm
    dsimp only
    rw [if_neg (fun hc => hc heq)]
    rw [resetPages_spec self.host_memory_size other.pmem log 0 self.pmem hw
      (by simpa using hlen)]
    refine ⟨_, rfl, rfl, rfl, rfl, rfl, rfl, rfl, ?_⟩
    intro a
    simp only [Nat.zero_mul, Nat.zero_le, true_and, Nat.sub_zero]

/-- C7 witness: a concrete one-word reset — bitmap word `3` marks pages 0
and 1 dirty; they are restored from the reference, the rest untouched. -/
theorem reset_spec_witness :
    ∃ s2, resetVm
        ⟨⟨0, 0, 0, 0, 0, 0, 0, 0, 0, 0, 0, 0, 0, 0, 0, 0, 0, 0⟩,
          ⟨0, 0, 0, 0, 0, 0⟩, 0, 0, 0, 0x40000, fun _ => 0⟩
        ⟨⟨7, 0, 0, 0, 0, 0, 0, 0, 0, 0, 0, 0, 0, 0, 0, 0, 0, 0⟩,
          ⟨9, 0, 0, 0, 0, 0⟩, 4, 5, 0, 0x40000, fun _ => 1⟩
        [3] true = some s2 ∧
      s2.registers = ⟨7, 0, 0, 0, 0, 0, 0, 0, 0, 0, 0, 0, 0, 0, 0, 0, 0, 0⟩ ∧
      s2.special_registers = ⟨9, 0, 0, 0, 0, 0⟩ ∧
      s2.fs_base = 4 ∧
      s2.gs_base = 5 ∧
      s2.host_memory_size = 0x40000 ∧
      s2.hypercall_page = 0 ∧
      ∀ a, s2.pmem a = if dirtyBit [3] (a / PAGE_SIZE) = true
        then (fun _ => (1 : Nat)) a else (fun _ => (0 : Nat)) a :=
  (reset_spec
      ⟨⟨0, 0, 0, 0, 0, 0, 0, 0, 0, 0, 0, 0, 0, 0, 0, 0, 0, 0⟩,
        ⟨0, 0, 0, 0, 0, 0⟩, 0, 0, 0, 0x40000, fun _ => 0⟩
      ⟨⟨7, 0, 0, 0, 0, 0, 0, 0, 0, 0, 0, 0, 0, 0, 0, 0, 0, 0⟩,
        ⟨9, 0, 0, 0, 0, 0⟩, 4, 5, 0, 0x40000, fun _ => 1⟩
      [3]).2.2 rfl
    (by intro w hw; simp only [List.mem_singleton] at hw; subst hw; decide)
    (by decide)
